import Mathlib

/-!
Verification of the zone/deck model and turn-resolution engine of the
Redemption probability simulation (`src/models.py`, `src/models_v2.py`,
`src/simulation.py`, `src/spectrograph_simulation.py`, `src/utils.py`).
Python `deque`/`list` zones are embedded as Lean lists (front = index 0);
raised exceptions are embedded as `none` / `Except.error`.
-/

set_option maxHeartbeats 1000000

namespace RedSim

/-- Embeds `Card` of `src/models.py`: a `card_type` plus an optional
`subtype` (the constructor stores `None` when no truthy subtype is given). -/
structure CardV1 where
  card_type : String
  subtype : Option String
deriving DecidableEq

/-- Python truthiness of an optional string argument: `not x` holds for
`None` and for the empty string. -/
def strOptTruthy : Option String → Bool
  | none => false
  | some s => decide (s ≠ "")

/-- The conjunctive filter of `Zone.count` and `Zone.remove` in
`src/models.py`: `(not card_type or card.card_type == card_type) and
(not subtype or card.subtype == subtype)`. -/
def matchAll (ct st : Option String) (c : CardV1) : Bool :=
  (!strOptTruthy ct || c.card_type == ct.getD "")
    && (!strOptTruthy st || c.subtype == some (st.getD ""))

/-- The disjunctive filter of `Zone.search_for` in `src/models.py`:
`(card_type and card.card_type == card_type) or
(subtype and card.subtype == subtype)`. -/
def matchAny (ct st : Option String) (c : CardV1) : Bool :=
  (strOptTruthy ct && c.card_type == ct.getD "")
    || (strOptTruthy st && c.subtype == some (st.getD ""))

/-- The generator sum `sum(1 for card in cards if p card)` used by
`Zone.count`. -/
def countAux {α : Type} (p : α → Bool) : List α → Nat
  | [] => 0
  | c :: cs => (if p c then 1 else 0) + countAux p cs

/-- Embeds `Zone.count` of `src/models.py`: counts the conjunctive matches;
the source has no error path, so no criterion means every card matches. -/
def Zone.countV1 (ct st : Option String) (cards : List CardV1) : Nat :=
  countAux (matchAll ct st) cards

/-- The scan-and-remove loop shared by the `remove` methods: drop the first
element satisfying `p` and return it with the remaining sequence. -/
def removeFirst {α : Type} (p : α → Bool) : List α → Option α × List α
  | [] => (none, [])
  | c :: cs =>
    if p c then (some c, cs)
    else ((removeFirst p cs).1, c :: (removeFirst p cs).2)

/-- Embeds `Zone.remove` of `src/models.py`: removes and returns the first
conjunctive match, `none` when absent; the source never raises. -/
def Zone.removeV1 (ct st : Option String) (cards : List CardV1) :
    Option CardV1 × List CardV1 :=
  removeFirst (matchAll ct st) cards

/-- `deque.remove(card)` / `list.remove(card)`: drop the first element equal
to `c` (the callers below only erase an element they just found). -/
def eraseFirst {α : Type} [DecidableEq α] (c : α) (l : List α) : List α :=
  (removeFirst (fun x => decide (x = c)) l).2

/-- Embeds `Zone.search_for` of `src/models.py`: `none` models the
`ValueError` raised when neither criterion is truthy; otherwise the first
disjunctive match among the first `top_n` cards is removed from the zone. -/
def Zone.searchForV1 (ct : Option String) (top_n : Option Nat)
    (st : Option String) (cards : List CardV1) :
    Option (Option CardV1 × List CardV1) :=
  if !strOptTruthy ct && !strOptTruthy st then none
  else
    let space := match top_n with
      | none => cards
      | some n => cards.take n
    match space.find? (matchAny ct st) with
    | some c => some (some c, eraseFirst c cards)
    | none => some (none, cards)

/-- The draw loop of `Deck.draw_n`: pop `n` cards off the front. -/
def popleftN {α : Type} : Nat → List α → List α × List α
  | 0, cs => ([], cs)
  | _ + 1, [] => ([], [])
  | n + 1, c :: cs => (c :: (popleftN n cs).1, (popleftN n cs).2)

/-- Embeds `Deck.draw_n` (identical logic in `src/models.py` and
`src/models_v2.py`): `none` models the `ValueError` for a non-positive draw
count; otherwise the first `min(k, len)` cards are popped off the front. -/
def Deck.drawN {α : Type} (k : Int) (cards : List α) :
    Option (List α × List α) :=
  if k ≤ 0 then none
  else some (popleftN (min k.toNat cards.length) cards)

/-- `Deck.bottom_cards` with `random_order=False`: extend at the bottom. -/
def Deck.bottomCards {α : Type} (cards new : List α) : List α := cards ++ new

/-- `Deck.top_cards`: prepend a batch, preserving its relative order. -/
def Deck.topCards {α : Type} (cards new : List α) : List α := new ++ cards

/-- The priority tiers of `Deck.resolve_the_virgin_birth` in
`src/models.py`. -/
def priorityOrder : List String := ["macguffin", "tutor", "peter", "coin", "lost_soul"]

/-- `card.card_type == priority or card.subtype == priority`. -/
def cardMatchesPriority (p : String) (c : CardV1) : Bool :=
  c.card_type == p || c.subtype == some p

/-- The nested priority scan of `Deck.resolve_the_virgin_birth`: for each
tier in order, take the first window card matching it. -/
def pickByPriority : List String → List CardV1 → Option CardV1
  | [], _ => none
  | p :: ps, cs =>
    match cs.find? (cardMatchesPriority p) with
    | some c => some c
    | none => pickByPriority ps cs

/-- Embeds `Deck.resolve_the_virgin_birth` of `src/models.py`: reveal up to
six cards, pick by priority, return the window to the top and the
placeholder to the bottom. `none` models the `IndexError` of
`top_six_cards[0]` on an empty window. The source removes the selected card
from the window only in the priority branch; the fallback card is returned
and also put back on top with the rest of the window. -/
def Deck.resolveVirginBirth (vb : CardV1) (deck : List CardV1) :
    Option (CardV1 × List CardV1) :=
  match Deck.drawN 6 deck with
  | none => none
  | some (topSix, rest) =>
    match pickByPriority priorityOrder topSix with
    | some c =>
      some (c, Deck.bottomCards (Deck.topCards rest (eraseFirst c topSix)) [vb])
    | none =>
      match topSix with
      | [] => none
      | c :: _ => some (c, Deck.bottomCards (Deck.topCards rest topSix) [vb])

/-- The four zones of `Simulation` (`src/simulation.py`). -/
structure SimStateV1 where
  deck : List CardV1
  hand : List CardV1
  territory : List CardV1
  discard : List CardV1
deriving DecidableEq

/-- Result of running the trigger loop with an explicit iteration budget:
normal exit, a modelled runtime error, or budget exhausted. -/
inductive LoopResult where
  | ok (s : SimStateV1)
  | err
  | noFuel (s : SimStateV1)
deriving DecidableEq

/-- Whether the loop ran out of its iteration budget. -/
def LoopResult.isNoFuel : LoopResult → Bool
  | .noFuel _ => true
  | _ => false

/-- The total number of zone entries of a state. -/
def zoneTotal (s : SimStateV1) : Nat :=
  s.deck.length + s.hand.length + s.territory.length + s.discard.length

/-- The zone total of a normally-finished loop result. -/
def LoopResult.total : LoopResult → Option Nat
  | .ok s => some (zoneTotal s)
  | _ => none

/-- One iteration of the lost-soul trigger loop of `Simulation._draw_cards`
(`src/simulation.py` lines 186 to 205): move the first lost soul in hand to
territory, redraw one card unless the deck is empty, then apply the cycler
or prosperity sub-effect. `.error` models the cycler branch passing `None`
(no `non_lost_soul` in hand) to `Deck.bottom_cards`; the prosperity branch
feeds the same `None` to `Zone.add`, which ignores falsy input. -/
def lostSoulStep (s : SimStateV1) : Except Unit SimStateV1 :=
  match Zone.removeV1 (some "lost_soul") none s.hand with
  | (none, _) => .error ()
  | (some ls, hand1) =>
    let territory1 := s.territory ++ [ls]
    let hand2 := if s.deck.length = 0 then hand1
      else hand1 ++ ((Deck.drawN 1 s.deck).getD ([], s.deck)).1
    let deck2 := if s.deck.length = 0 then s.deck
      else ((Deck.drawN 1 s.deck).getD ([], s.deck)).2
    if ls.subtype == some "cycler" then
      if Zone.countV1 (some "macguffin") none hand2 = 0
          ∧ Zone.countV1 (some "tutor") none hand2 = 0 then
        match Zone.removeV1 (some "non_lost_soul") none hand2 with
        | (none, _) => .error ()
        | (some c, hand3) =>
          let deck3 := Deck.bottomCards deck2 [c]
          let dr := (Deck.drawN 1 deck3).getD ([], deck3)
          .ok ⟨dr.2, hand3 ++ dr.1, territory1, s.discard⟩
      else .ok ⟨deck2, hand2, territory1, s.discard⟩
    else if ls.subtype == some "prosperity" then
      if Zone.countV1 (some "macguffin") none hand2 = 0
          ∧ Zone.countV1 (some "tutor") none hand2 = 0 then
        match Zone.removeV1 (some "non_lost_soul") none hand2 with
        | (copt, hand3) =>
          let discard1 := s.discard ++ (match copt with
            | some c => [c]
            | none => [])
          let dr := (Deck.drawN 2 deck2).getD ([], deck2)
          .ok ⟨dr.2, hand3 ++ dr.1, territory1, discard1⟩
      else .ok ⟨deck2, hand2, territory1, s.discard⟩
    else .ok ⟨deck2, hand2, territory1, s.discard⟩

/-- The `while self.hand.count("lost_soul") > 0` loop of
`Simulation._draw_cards`, with an explicit iteration budget. -/
def lostSoulLoop : Nat → SimStateV1 → LoopResult
  | 0, s =>
    if 0 < Zone.countV1 (some "lost_soul") none s.hand then .noFuel s else .ok s
  | fuel + 1, s =>
    if 0 < Zone.countV1 (some "lost_soul") none s.hand then
      match lostSoulStep s with
      | .error _ => .err
      | .ok s2 => lostSoulLoop fuel s2
    else .ok s

/-- The virgin-birth substitution pass of `Simulation._draw_cards`: replace
each drawn placeholder by the result of `resolve_the_virgin_birth`,
threading the deck; `.error` propagates its `IndexError`. -/
def processDrawn : List CardV1 → List CardV1 → Except Unit (List CardV1 × List CardV1)
  | [], deck => .ok ([], deck)
  | c :: cs, deck =>
    if c.subtype == some "virgin_birth" then
      match Deck.resolveVirginBirth c deck with
      | none => .error ()
      | some (c2, deck2) =>
        match processDrawn cs deck2 with
        | .error e => .error e
        | .ok (rest, deck3) => .ok (c2 :: rest, deck3)
    else
      match processDrawn cs deck with
      | .error e => .error e
      | .ok (rest, deck2) => .ok (c :: rest, deck2)

/-- Embeds `Simulation._draw_cards` (`src/simulation.py` lines 170 to 205).
As in the source, the drawn batch is added to the hand only under
`resolve_stars`; the trigger loop then runs with budget `|hand| + |deck|`. -/
def drawCardsV1 (k : Int) (resolveStars virginBirth : Bool) (s : SimStateV1) :
    LoopResult :=
  match Deck.drawN k s.deck with
  | none => .err
  | some (drawn, deck1) =>
    let afterStars : Except Unit SimStateV1 :=
      if resolveStars then
        if virginBirth then
          match processDrawn drawn deck1 with
          | .error e => .error e
          | .ok (drawn2, deck2) => .ok ⟨deck2, s.hand ++ drawn2, s.territory, s.discard⟩
        else .ok ⟨deck1, s.hand ++ drawn, s.territory, s.discard⟩
      else .ok ⟨deck1, s.hand, s.territory, s.discard⟩
    match afterStars with
    | .error _ => .err
    | .ok s1 => lostSoulLoop (s1.hand.length + s1.deck.length) s1

/-- Embeds `determine_lost_souls_required` of `src/utils.py`; `none` models
the `ValueError` for a deck size outside every listed band. -/
def determineLostSoulsRequired (deck_size : Int) : Option Int :=
  if 50 ≤ deck_size ∧ deck_size ≤ 56 then some 7
  else if 57 ≤ deck_size ∧ deck_size ≤ 63 then some 8
  else if 64 ≤ deck_size ∧ deck_size ≤ 70 then some 9
  else if 71 ≤ deck_size ∧ deck_size ≤ 77 then some 10
  else if 78 ≤ deck_size ∧ deck_size ≤ 84 then some 11
  else if 85 ≤ deck_size ∧ deck_size ≤ 91 then some 12
  else if 92 ≤ deck_size ∧ deck_size ≤ 98 then some 13
  else if 99 ≤ deck_size ∧ deck_size ≤ 105 then some 14
  else none

/-- The constructor parameters of `Simulation` that shape the deck list. -/
structure SimConfig where
  deck_size : Int
  n_cycler_souls : Int
  n_tutors : Int
  hopper : Bool
  virgin_birth : Bool
  prosperity : Bool
  four_drachma_coin : Bool
  denarius : Bool
deriving DecidableEq

def mgCard : CardV1 := ⟨"macguffin", none⟩

def tutorCard : CardV1 := ⟨"tutor", none⟩

def chaffCard : CardV1 := ⟨"non_lost_soul", none⟩

def meekCard : CardV1 := ⟨"lost_soul", some "meek"⟩

def cyclerCard : CardV1 := ⟨"lost_soul", some "cycler"⟩

def peterCard : CardV1 := ⟨"non_lost_soul", some "peter"⟩

def coinCard : CardV1 := ⟨"non_lost_soul", some "coin"⟩

/-- Embeds `Simulation.generate_decklist` together with the constructor's
lost-soul arithmetic (`src/simulation.py` lines 48 to 102); `none` models
the constructor's `ValueError` from `determine_lost_souls_required`. A
negative replicate count adds no cards, exactly like Python's `range` of a
negative number. -/
def generateDecklist (cfg : SimConfig) : Option (List CardV1) :=
  match determineLostSoulsRequired cfg.deck_size with
  | none => none
  | some souls =>
    let modified : Int := souls - (if cfg.prosperity then 1 else 0) - cfg.n_cycler_souls
    let base : List CardV1 :=
      [mgCard]
        ++ List.replicate cfg.n_tutors.toNat tutorCard
        ++ (if cfg.hopper then [⟨"lost_soul", some "hopper"⟩] else [])
        ++ (if cfg.prosperity then [⟨"lost_soul", some "prosperity"⟩] else [])
        ++ List.replicate cfg.n_cycler_souls.toNat cyclerCard
        ++ List.replicate modified.toNat meekCard
        ++ (if cfg.virgin_birth then [⟨"non_lost_soul", some "virgin_birth"⟩] else [])
        ++ (if cfg.four_drachma_coin then [peterCard, coinCard] else [])
        ++ (if cfg.denarius then [⟨"non_lost_soul", some "denarius"⟩, ⟨"non_lost_soul", some "emperor"⟩] else [])
    some (base ++ List.replicate (cfg.deck_size - base.length).toNat chaffCard)

/-- A card count of interest: lost souls in a list. -/
def countLS (l : List CardV1) : Nat :=
  l.countP (fun c => c.card_type == "lost_soul")

/-- The termination measure of the trigger loop: lost souls in hand plus
lost souls in deck. -/
def lsMeasure (s : SimStateV1) : Nat := countLS s.hand + countLS s.deck

/-- Embeds `Card` of `src/models_v2.py` (the fields the simulation reads);
`tags` holds the tag keys of the card's tag dictionary. -/
structure CardV2 where
  name : String
  type : String
  brigade : List String
  alignment : String
  tags : List String
deriving DecidableEq

/-- Embeds `Zone.count` of `src/models_v2.py`: `none` models the
`ValueError` raised when neither criterion is truthy; otherwise the
conjunctive count. -/
def Zone.countV2 (name type : Option String) (cards : List CardV2) : Option Nat :=
  if !strOptTruthy name && !strOptTruthy type then none
  else some (countAux (fun c =>
    (!strOptTruthy name || c.name == name.getD "")
      && (!strOptTruthy type || c.type == type.getD "")) cards)

/-- Tables imported from `src/constants.py`, a module of this repository
that is not among the provided sources. Modelled from the spec: the spec
only requires a designated set of cycler-like soul names, good/evil brigade
lists for multi-brigade expansion, and the run's selection-policy string,
so the embedding carries them as parameters. -/
structure CtxV2 where
  cyclerSouls : List String
  goodBrigades : List String
  evilBrigades : List String
  cyclerLogic : String
deriving DecidableEq

/-- Embeds `Zone.count_actual_brigades` of `src/models_v2.py`. -/
def countActualBrigades (ctx : CtxV2) : List String → Nat
  | [] => 0
  | b :: bs =>
    (if b = "Good Multi" then ctx.goodBrigades.length
      else if b = "Evil Multi" then ctx.evilBrigades.length
      else 1) + countActualBrigades ctx bs

/-- Python's `max(xs, key=...)` keeps the first element attaining the
maximal key: later elements replace the current best only when strictly
greater. -/
def maxByBrigadesAux (ctx : CtxV2) (best : CardV2) : List CardV2 → CardV2
  | [] => best
  | c :: cs =>
    maxByBrigadesAux ctx
      (if countActualBrigades ctx c.brigade > countActualBrigades ctx best.brigade
        then c else best) cs

/-- `max(non_lost_soul_cards, key=count_actual_brigades, default=None)`. -/
def maxByBrigades (ctx : CtxV2) : List CardV2 → Option CardV2
  | [] => none
  | c :: cs => some (maxByBrigadesAux ctx c cs)

/-- Embeds `Zone.remove` of `src/models_v2.py`: `none` models its two
`ValueError`s (no criterion, or both); the `MostBrigades` and
`RandomNonLostSoul` sentinels follow the source, including the fall-through
to the plain loop when `MostBrigades` finds no non-lost-soul card. -/
def Zone.removeV2 (ctx : CtxV2) (name type : Option String)
    (cards : List CardV2) : Option (Option CardV2 × List CardV2) :=
  if !strOptTruthy name && !strOptTruthy type then none
  else if strOptTruthy name && strOptTruthy type then none
  else
    match (if type == some "MostBrigades" then
        match maxByBrigades ctx (cards.filter (fun c => c.type ≠ "Lost Soul")) with
        | some m => some (some m, eraseFirst m cards)
        | none => none
      else none : Option (Option CardV2 × List CardV2)) with
    | some r => some r
    | none =>
      some (removeFirst (fun c =>
        (type == some "RandomNonLostSoul" && !(c.type == "Lost Soul"))
          || (strOptTruthy name && c.name == name.getD "")
          || (strOptTruthy type && c.type == type.getD "")) cards)

/-- The four zones of `SpectrographSimulation`
(`src/spectrograph_simulation.py`). -/
structure StateV2 where
  deck : List CardV2
  hand : List CardV2
  territory : List CardV2
  discard : List CardV2
deriving DecidableEq

/-- Embeds `SpectrographSimulation._resolve_cycler`: underdeck one hand card
chosen by the configured policy and redraw one card. `.error` models
passing a `None` removal result on to `Deck.bottom_cards`. -/
def resolveCyclerV2 (ctx : CtxV2) (s : StateV2) : Except Unit StateV2 :=
  match (if ctx.cyclerLogic == "optimized"
      then Zone.removeV2 ctx none (some "MostBrigades") s.hand
      else Zone.removeV2 ctx none (some "RandomNonLostSoul") s.hand) with
  | none => .error ()
  | some (none, _) => .error ()
  | some (some c, hand1) =>
    .ok ⟨((Deck.drawN 1 (Deck.bottomCards s.deck [c])).getD
            ([], Deck.bottomCards s.deck [c])).2,
      hand1 ++ ((Deck.drawN 1 (Deck.bottomCards s.deck [c])).getD
            ([], Deck.bottomCards s.deck [c])).1,
      s.territory, s.discard⟩

/-- The `for i, card in enumerate(top_six)` loop of
`SpectrographSimulation._resolve_lawless`, with the source's
pop-while-enumerating index behaviour: after `top_six.pop(i)` the iterator
still advances to position `i + 1` of the shortened list, so the element
that slid into position `i` is never examined. `fuel` is the initial window
length, which bounds the iteration count (`i` grows by one per step and the
loop stops once `i` reaches the current length). -/
def lawlessAux (ctx : CtxV2) : Nat → Nat → List CardV2 → Bool → StateV2 →
    Except Unit (List CardV2 × StateV2)
  | 0, _, topSix, _, s => .ok (topSix, s)
  | fuel + 1, i, topSix, gotEvil, s =>
    if h : i < topSix.length then
      if (topSix.get ⟨i, h⟩).type == "Lost Soul" then
        if (topSix.get ⟨i, h⟩).name ∈ ctx.cyclerSouls then
          match resolveCyclerV2 ctx
              ⟨s.deck, s.hand, s.territory ++ [topSix.get ⟨i, h⟩], s.discard⟩ with
          | .error e => .error e
          | .ok s2 => lawlessAux ctx fuel (i + 1) (topSix.eraseIdx i) gotEvil s2
        else
          lawlessAux ctx fuel (i + 1) (topSix.eraseIdx i) gotEvil
            ⟨s.deck, s.hand, s.territory ++ [topSix.get ⟨i, h⟩], s.discard⟩
      else if !gotEvil && (topSix.get ⟨i, h⟩).alignment == "Evil" then
        lawlessAux ctx fuel (i + 1) (topSix.eraseIdx i) true
          ⟨s.deck, s.hand ++ [topSix.get ⟨i, h⟩], s.territory, s.discard⟩
      else lawlessAux ctx fuel (i + 1) topSix gotEvil s
    else .ok (topSix, s)

/-- Embeds `SpectrographSimulation._resolve_lawless`
(`src/spectrograph_simulation.py` lines 154 to 168): reveal the top six,
run the enumerate loop, then return the cards still in the window to the
bottom of the deck. -/
def resolveLawlessV2 (ctx : CtxV2) (s : StateV2) : Except Unit StateV2 :=
  match (Deck.drawN 6 s.deck).getD ([], s.deck) with
  | (topSix, deck1) =>
    match lawlessAux ctx topSix.length 0 topSix false
        ⟨deck1, s.hand, s.territory, s.discard⟩ with
    | .error e => .error e
    | .ok (rest, s1) =>
      .ok ⟨Deck.bottomCards s1.deck rest, s1.hand, s1.territory, s1.discard⟩

/-- Concrete state for C1: the `Simulation` state just before the
four-drachma-coin effect calls `_draw_cards(n_cards=4, resolve_stars=False)`
in a 50-card game (opening hand of eight already resolved, Peter played to
territory, the coin discarded). -/
def c1State : SimStateV1 :=
  ⟨List.replicate 4 chaffCard ++ List.replicate 7 meekCard ++ [mgCard]
      ++ List.replicate 30 chaffCard,
    List.replicate 6 chaffCard, [peterCard], [coinCard]⟩

/-- Concrete deck for C10: a legal 78-card deck (11 souls: ten cyclers and
one meek) in a reachable shuffle order — seven cycler souls and one plain
card on top, then three more cycler souls. -/
def c10Deck : List CardV1 :=
  List.replicate 7 cyclerCard ++ [chaffCard]
    ++ List.replicate 3 cyclerCard ++ [meekCard]
    ++ List.replicate 65 chaffCard ++ [mgCard]

/-- Concrete state for C10: the reset state before the opening draw. -/
def c10State : SimStateV1 := ⟨c10Deck, [], [], []⟩

/-- A card used by the C2 counterexample. -/
def cardAx : CardV1 := ⟨"A", some "x"⟩

/-- A window with one card of every priority tier, for the C4 witness. -/
def deckTiers : List CardV1 :=
  [⟨"lost_soul", none⟩, coinCard, peterCard, tutorCard, mgCard]

/-- The virgin-birth placeholder card. -/
def vbCard : CardV1 := ⟨"non_lost_soul", some "virgin_birth"⟩

/-- Overfull configuration for C8: 1 macguffin + 45 tutors + 7 meek souls
exceed the configured size of 50. -/
def cfgOverfull : SimConfig := ⟨50, 0, 45, false, false, false, false, false⟩

/-- Concrete v2 cards and context for C9. -/
def lsACard : CardV2 := ⟨"Lost Soul A", "Lost Soul", [], "Neutral", []⟩

def lsBCard : CardV2 := ⟨"Lost Soul B", "Lost Soul", [], "Neutral", []⟩

def heroCard : CardV2 := ⟨"Hero One", "Hero", ["Gold"], "Good", []⟩

def ctx0 : CtxV2 := ⟨["Hopper Lost Soul"], ["Gold"], ["Brown"], "unoptimized"⟩

/-- Concrete state for C9: the top of the deck reveals two adjacent lost
souls followed by heroes. -/
def c9State : StateV2 :=
  ⟨[lsACard, lsBCard, heroCard, heroCard, heroCard, heroCard, heroCard],
    [], [], []⟩

/-! ### Basic lemmas about the embedded zone operations -/

theorem countAux_eq_countP {α : Type} (p : α → Bool) (l : List α) :
    countAux p l = l.countP p := by
  induction l with
  | nil => simp [countAux]
  | cons c cs ih => simp [countAux, List.countP_cons, ih]; omega

theorem countAux_eq_filter_length {α : Type} (p : α → Bool) (l : List α) :
    countAux p l = (l.filter p).length := by
  rw [countAux_eq_countP, List.countP_eq_length_filter]

theorem strOptTruthy_some (t : String) (ht : t ≠ "") :
    strOptTruthy (some t) = true := by
  simp [strOptTruthy, ht]

theorem matchAll_none_none (c : CardV1) : matchAll none none c = true := by
  simp [matchAll, strOptTruthy]

theorem matchAll_ct (t : String) (ht : t ≠ "") (c : CardV1) :
    matchAll (some t) none c = (c.card_type == t) := by
  simp [matchAll, strOptTruthy, ht]

theorem matchAll_st (t : String) (ht : t ≠ "") (c : CardV1) :
    matchAll none (some t) c = (c.subtype == some t) := by
  simp [matchAll, strOptTruthy, ht]

theorem matchAll_both (t u : String) (ht : t ≠ "") (hu : u ≠ "") (c : CardV1) :
    matchAll (some t) (some u) c = (c.card_type == t && c.subtype == some u) := by
  simp [matchAll, strOptTruthy, ht, hu]

theorem matchAny_ct (t : String) (ht : t ≠ "") (c : CardV1) :
    matchAny (some t) none c = (c.card_type == t) := by
  simp [matchAny, strOptTruthy, ht]

theorem matchAny_st (t : String) (ht : t ≠ "") (c : CardV1) :
    matchAny none (some t) c = (c.subtype == some t) := by
  simp [matchAny, strOptTruthy, ht]

theorem removeFirst_fst_none {α : Type} (p : α → Bool) (l : List α)
    (h : (removeFirst p l).1 = none) : (removeFirst p l).2 = l := by
  induction l with
  | nil => rfl
  | cons c cs ih =>
    by_cases hp : p c
    · simp [removeFirst, hp] at h
    · simp only [removeFirst, hp, if_false, Bool.false_eq_true] at h ⊢
      exact congrArg (c :: ·) (ih h)

theorem removeFirst_fst_some {α : Type} (p : α → Bool) (l : List α) (c : α)
    (h : (removeFirst p l).1 = some c) : p c = true := by
  induction l with
  | nil => simp [removeFirst] at h
  | cons a as ih =>
    by_cases hp : p a
    · simp [removeFirst, hp] at h
      exact h ▸ hp
    · simp only [removeFirst, hp, if_false, Bool.false_eq_true] at h
      exact ih h

theorem removeFirst_countP {α : Type} (p q : α → Bool) (l : List α) :
    l.countP q = (removeFirst p l).2.countP q +
      (match (removeFirst p l).1 with
        | some c => if q c then 1 else 0
        | none => 0) := by
  induction l with
  | nil => simp [removeFirst]
  | cons a as ih =>
    by_cases hp : p a
    · simp [removeFirst, hp, List.countP_cons]
    · simp only [removeFirst, hp, if_false, Bool.false_eq_true, List.countP_cons]
      omega

theorem removeFirst_fst_isSome {α : Type} (p : α → Bool) (l : List α)
    (h : 0 < l.countP p) : ∃ c, (removeFirst p l).1 = some c := by
  induction l with
  | nil => simp at h
  | cons a as ih =>
    by_cases hp : p a
    · exact ⟨a, by simp [removeFirst, hp]⟩
    · rw [List.countP_cons] at h
      simp only [hp, if_false, Bool.false_eq_true, Nat.add_zero] at h
      obtain ⟨c, hc⟩ := ih h
      exact ⟨c, by simp [removeFirst, hp, hc]⟩

theorem removeFirst_congr {α : Type} (p q : α → Bool) (l : List α)
    (h : ∀ c, p c = q c) : removeFirst p l = removeFirst q l := by
  induction l with
  | nil => rfl
  | cons a as ih => simp only [removeFirst, h, ih]

theorem find_erase_eq_removeFirst {α : Type} [DecidableEq α]
    (p : α → Bool) (l : List α) :
    (match l.find? p with
      | some c => ((some c : Option α), eraseFirst c l)
      | none => (none, l)) = removeFirst p l := by
  induction l with
  | nil => simp [removeFirst]
  | cons a as ih =>
    by_cases hp : p a
    · rw [List.find?_cons_of_pos as hp]
      simp [removeFirst, hp, eraseFirst]
    · rw [List.find?_cons_of_neg as (by simp [hp])]
      cases hfind : as.find? p with
      | none =>
        rw [hfind] at ih
        have h1 : (removeFirst p as).1 = none := by rw [← ih]
        have h2 : (removeFirst p as).2 = as := removeFirst_fst_none p as h1
        simp [removeFirst, hp, h1, h2]
      | some c =>
        have hpc : p c = true := List.find?_some hfind
        have hac : ¬ (a = c) := fun he => hp (he ▸ hpc)
        rw [hfind] at ih
        have h1 : (removeFirst p as).1 = some c := by rw [← ih]
        have h2 : (removeFirst p as).2 = eraseFirst c as := by rw [← ih]
        simp only [removeFirst, hp, if_false, Bool.false_eq_true, h1, h2,
          eraseFirst, hac, decide_eq_true_eq, if_neg hac]

theorem countP_transfer {α : Type} (q : α → Bool) (h l : List α) (n : Nat) :
    ((h ++ l.take n).countP q) + ((l.drop n).countP q)
      = h.countP q + l.countP q := by
  rw [List.countP_append, Nat.add_assoc, ← List.countP_append,
    List.take_append_drop]

theorem popleftN_min {α : Type} (n : Nat) (l : List α) :
    popleftN (min n l.length) l = (l.take n, l.drop n) := by
  induction l generalizing n with
  | nil => simp [popleftN]
  | cons c cs ih =>
    cases n with
    | zero => simp [popleftN]
    | succ m =>
      rw [List.length_cons, Nat.succ_min_succ]
      simp only [popleftN, ih, List.take_succ_cons, List.drop_succ_cons]

theorem drawN_eq_take_drop {α : Type} (k : Int) (hk : 0 < k) (l : List α) :
    Deck.drawN k l = some (l.take k.toNat, l.drop k.toNat) := by
  unfold Deck.drawN
  rw [if_neg (by omega), popleftN_min]

theorem pickByPriority_eq_none (ps : List String) (cs : List CardV1)
    (h : ∀ c ∈ cs, ∀ p ∈ ps, cardMatchesPriority p c = false) :
    pickByPriority ps cs = none := by
  induction ps with
  | nil => rfl
  | cons p ps ih =>
    have hf : cs.find? (cardMatchesPriority p) = none := by
      rw [List.find?_eq_none]
      intro x hx
      simp [h x hx p (by simp)]
    simp only [pickByPriority, hf]
    exact ih (fun c hc q hq => h c hc q (by simp [hq]))

theorem resolveVirginBirth_eq (vb : CardV1) (deck : List CardV1) :
    Deck.resolveVirginBirth vb deck =
      match pickByPriority priorityOrder (deck.take 6) with
      | some c => some (c, eraseFirst c (deck.take 6) ++ deck.drop 6 ++ [vb])
      | none =>
        match deck.take 6 with
        | [] => none
        | c :: _ => some (c, deck.take 6 ++ deck.drop 6 ++ [vb]) := by
  unfold Deck.resolveVirginBirth Deck.bottomCards Deck.topCards
  rw [drawN_eq_take_drop 6 (by omega)]
  rfl

/-! ### C5: `Deck.draw_n` -/

/-- C5: `draw_n(k)` raises (`none`) exactly for `k ≤ 0`; for positive `k` it
removes and returns the first `min(k, |deck|)` cards from the front in
order, so an under-draw — including a draw from an empty deck — never
raises. -/
theorem drawN_spec {α : Type} (k : Int) (cards : List α) :
    (Deck.drawN k cards = none ↔ k ≤ 0)
      ∧ (0 < k →
        Deck.drawN k cards = some (cards.take k.toNat, cards.drop k.toNat)
          ∧ (cards.take k.toNat).length = min k.toNat cards.length) := by
  constructor
  · constructor
    · intro h
      by_contra hk
      rw [drawN_eq_take_drop k (by omega)] at h
      exact Option.noConfusion h
    · intro hk
      unfold Deck.drawN
      rw [if_pos hk]
  · intro hk
    exact ⟨drawN_eq_take_drop k hk cards, List.length_take _ _⟩

/-- Witness for C5 at the spec scenario: drawing five from a three-card deck
returns all three cards in order and leaves the deck empty, raising
nothing. -/
theorem drawN_spec_witness :
    (0 : Int) < 5
      ∧ Deck.drawN 5 [mgCard, tutorCard, chaffCard]
        = some ([mgCard, tutorCard, chaffCard], []) := by
  refine ⟨by decide, ?_⟩
  have h := (drawN_spec 5 [mgCard, tutorCard, chaffCard]).2 (by decide)
  simpa using h.1

/-! ### C3: `resolve_the_virgin_birth` totality -/

/-- C3 counterexample: on an empty deck, `resolve_the_virgin_birth` fails —
`top_six_cards[0]` raises `IndexError` — rather than never failing. -/
theorem virginBirth_empty_counterexample :
    Deck.resolveVirginBirth vbCard [] = none := by decide

/-- C3 (amended): `resolve_the_virgin_birth` succeeds exactly on nonempty
decks: with at least one card the revealed window degrades to however many
cards remain and a card is returned, but on an empty deck the call raises
`IndexError` instead of never failing. -/
theorem virginBirth_isSome_iff (vb : CardV1) (deck : List CardV1) :
    (Deck.resolveVirginBirth vb deck).isSome ↔ deck ≠ [] := by
  cases deck with
  | nil => simp [resolveVirginBirth_eq, pickByPriority, priorityOrder]
  | cons c cs =>
    rw [resolveVirginBirth_eq]
    have htake : (c :: cs).take 6 = c :: cs.take 5 := rfl
    constructor
    · intro _
      exact List.cons_ne_nil c cs
    · intro _
      cases hpick : pickByPriority priorityOrder ((c :: cs).take 6) with
      | some c2 => simp
      | none => simp [htake]

/-! ### C4: replacement-draw priority -/

/-- C4: over the revealed window of `resolve_the_virgin_birth`, a window
containing a card of every priority tier selects a card of the highest
tier (macguffin); a nonempty window with no priority-tier card selects the
first revealed card; and in every successful case the placeholder card ends
at the bottom of the deck. -/
theorem virginBirth_priority (vb : CardV1) (deck : List CardV1) :
    ((∀ p ∈ priorityOrder, ∃ c ∈ deck.take 6, cardMatchesPriority p c = true) →
      ∃ c d2, Deck.resolveVirginBirth vb deck = some (c, d2)
        ∧ cardMatchesPriority "macguffin" c = true)
      ∧ ((∀ c ∈ deck.take 6, ∀ p ∈ priorityOrder, cardMatchesPriority p c = false) →
        ∀ c0 cs0, deck = c0 :: cs0 →
          ∃ d2, Deck.resolveVirginBirth vb deck = some (c0, d2))
      ∧ (∀ c d2, Deck.resolveVirginBirth vb deck = some (c, d2) →
        d2.getLast? = some vb) := by
  refine ⟨?_, ?_, ?_⟩
  · intro h
    obtain ⟨c, hc, hmatch⟩ := h "macguffin" (by simp [priorityOrder])
    have hfind : ((deck.take 6).find? (cardMatchesPriority "macguffin")).isSome := by
      rw [List.find?_isSome]
      exact ⟨c, hc, hmatch⟩
    obtain ⟨c2, hc2⟩ := Option.isSome_iff_exists.mp hfind
    have hpick : pickByPriority priorityOrder (deck.take 6) = some c2 := by
      simp only [priorityOrder, pickByPriority, hc2]
    refine ⟨c2, eraseFirst c2 (deck.take 6) ++ deck.drop 6 ++ [vb], ?_,
      List.find?_some hc2⟩
    rw [resolveVirginBirth_eq, hpick]
  · intro h c0 cs0 hdeck
    subst hdeck
    have hpick : pickByPriority priorityOrder ((c0 :: cs0).take 6) = none :=
      pickByPriority_eq_none _ _ h
    have htake : (c0 :: cs0).take 6 = c0 :: cs0.take 5 := rfl
    rw [resolveVirginBirth_eq, hpick, htake]
    exact ⟨_, rfl⟩
  · intro c d2 h
    rw [resolveVirginBirth_eq] at h
    cases hpick : pickByPriority priorityOrder (deck.take 6) with
    | some c2 =>
      rw [hpick] at h
      simp only [Option.some_inj, Prod.mk.injEq] at h
      rw [← h.2, List.getLast?_concat]
    | none =>
      rw [hpick] at h
      cases htake : deck.take 6 with
      | nil =>
        rw [htake] at h
        exact Option.noConfusion h
      | cons c3 cs3 =>
        rw [htake] at h
        simp only [Option.some_inj, Prod.mk.injEq] at h
        rw [← h.2, List.getLast?_concat]

/-- Witness for C4: a five-card window with every tier selects the
macguffin-tier card; a window of plain cards selects the first revealed
card. -/
theorem virginBirth_priority_witness :
    (∃ c d2, Deck.resolveVirginBirth vbCard deckTiers = some (c, d2)
      ∧ cardMatchesPriority "macguffin" c = true)
      ∧ (∃ d2, Deck.resolveVirginBirth vbCard [chaffCard, chaffCard]
        = some (chaffCard, d2)) := by
  constructor
  · exact (virginBirth_priority vbCard deckTiers).1 (by decide)
  · exact (virginBirth_priority vbCard [chaffCard, chaffCard]).2.1 (by decide)
      chaffCard [chaffCard] rfl

/-! ### C2: `search_for` versus `remove` -/

/-- C2 counterexample: with both criteria supplied, `search_for` removes and
returns a card that `remove` does not (disjunctive versus conjunctive
matching), and with no criterion `remove` does not raise `InvalidQuery` —
it removes and returns the first card of the zone. -/
theorem searchFor_vs_remove_counterexample :
    Zone.searchForV1 (some "B") none (some "x") [cardAx] = some (some cardAx, [])
      ∧ Zone.removeV1 (some "B") (some "x") [cardAx] = (none, [cardAx])
      ∧ Zone.removeV1 none none [cardAx] = (some cardAx, []) := by decide

/-- C2 (amended): with exactly one truthy criterion and no `top_n`,
`search_for` removes and returns the same card as `remove` (the first card
matching the criterion); `search_for` raises `InvalidQuery` exactly when no
criterion is supplied, while `remove` never raises — with no criteria it
removes and returns the first card of the zone; with both criteria supplied
`remove` requires all of them and `search_for` any, so they can disagree. -/
theorem searchFor_vs_remove :
    (∀ (cards : List CardV1) (t : String), t ≠ "" →
      Zone.searchForV1 (some t) none none cards
        = some (Zone.removeV1 (some t) none cards))
      ∧ (∀ (cards : List CardV1) (t : String), t ≠ "" →
        Zone.searchForV1 none none (some t) cards
          = some (Zone.removeV1 none (some t) cards))
      ∧ (∀ cards : List CardV1, Zone.searchForV1 none none none cards = none)
      ∧ (∀ (c : CardV1) (cards : List CardV1),
        Zone.removeV1 none none (c :: cards) = (some c, cards)) := by
  refine ⟨?_, ?_, ?_, ?_⟩
  · intro cards t ht
    have hpq : Zone.removeV1 (some t) none cards
        = removeFirst (matchAny (some t) none) cards :=
      removeFirst_congr _ _ cards
        (fun c => by rw [matchAll_ct t ht, matchAny_ct t ht])
    unfold Zone.searchForV1
    rw [if_neg (by simp [strOptTruthy_some t ht]), hpq,
      ← find_erase_eq_removeFirst (matchAny (some t) none) cards]
    cases hf : cards.find? (matchAny (some t) none) <;> simp [hf]
  · intro cards t ht
    have hpq : Zone.removeV1 none (some t) cards
        = removeFirst (matchAny none (some t)) cards :=
      removeFirst_congr _ _ cards
        (fun c => by rw [matchAll_st t ht, matchAny_st t ht])
    unfold Zone.searchForV1
    rw [if_neg (by simp [strOptTruthy_some t ht]), hpq,
      ← find_erase_eq_removeFirst (matchAny none (some t)) cards]
    cases hf : cards.find? (matchAny none (some t)) <;> simp [hf]
  · intro cards
    simp [Zone.searchForV1, strOptTruthy]
  · intro c cards
    simp [Zone.removeV1, removeFirst, matchAll, strOptTruthy]

/-- Witness for C2 (amended) at a concrete single-criterion query. -/
theorem searchFor_vs_remove_witness :
    ("lost_soul" ≠ "")
      ∧ Zone.searchForV1 (some "lost_soul") none none [chaffCard, meekCard]
        = some (Zone.removeV1 (some "lost_soul") none [chaffCard, meekCard]) :=
  ⟨by decide, searchFor_vs_remove.1 [chaffCard, meekCard] "lost_soul" (by decide)⟩

/-! ### C7: `Zone.count` -/

/-- C7 counterexample: `models.py`'s `Zone.count` called with no criterion
does not raise `InvalidQuery` — it counts every card of the zone. -/
theorem count_no_criterion_counterexample :
    Zone.countV1 none none [chaffCard] = 1 := by decide

/-- C7 (amended): both `count` methods return the number of cards matching
all supplied criteria; `models_v2.py`'s `count` raises `InvalidQuery` when
no criterion is supplied, but `models.py`'s never raises — with no
criterion it counts every card of the zone. -/
theorem count_behaviour :
    (∀ cards : List CardV1, Zone.countV1 none none cards = cards.length)
      ∧ (∀ (cards : List CardV1) (t u : String), t ≠ "" → u ≠ "" →
        Zone.countV1 (some t) (some u) cards
          = (cards.filter (fun c => c.card_type == t && c.subtype == some u)).length)
      ∧ (∀ cards : List CardV2, Zone.countV2 none none cards = none)
      ∧ (∀ (cards : List CardV2) (t : String), t ≠ "" →
        Zone.countV2 none (some t) cards
          = some ((cards.filter (fun c => c.type == t)).length)) := by
  refine ⟨?_, ?_, ?_, ?_⟩
  · intro cards
    unfold Zone.countV1
    rw [countAux_eq_countP,
      @List.countP_congr _ (matchAll none none) (fun _ => true) cards
        (fun c _ => by rw [matchAll_none_none c]),
      List.countP_true]
  · intro cards t u ht hu
    unfold Zone.countV1
    rw [countAux_eq_countP,
      @List.countP_congr _ (matchAll (some t) (some u))
        (fun c => c.card_type == t && c.subtype == some u) cards
        (fun c _ => by rw [matchAll_both t u ht hu c]),
      List.countP_eq_length_filter]
  · intro cards
    simp [Zone.countV2, strOptTruthy]
  · intro cards t ht
    unfold Zone.countV2
    rw [if_neg (by simp [strOptTruthy_some t ht]), countAux_eq_countP,
      @List.countP_congr _ _ (fun c => c.type == t) cards
        (fun c _ => by simp [strOptTruthy, ht]),
      List.countP_eq_length_filter]

/-- Witness for C7 (amended) at concrete queries. -/
theorem count_behaviour_witness :
    ("Lost Soul" ≠ "")
      ∧ Zone.countV2 none (some "Lost Soul") [lsACard, heroCard]
        = some ((([lsACard, heroCard]).filter (fun c => c.type == "Lost Soul")).length) :=
  ⟨by decide, count_behaviour.2.2.2 [lsACard, heroCard] "Lost Soul" (by decide)⟩

/-! ### C8: deck-build failure -/

theorem determineLostSouls_isNone_iff (d : Int) :
    (determineLostSoulsRequired d).isNone ↔ (d < 50 ∨ 105 < d) := by
  unfold determineLostSoulsRequired
  split_ifs <;> simp <;> omega

/-- C8 counterexample: a recipe of 1 macguffin, 45 tutors and 7 lost souls
exceeds the configured size of 50, yet the build raises nothing and
returns a deck of 53 cards. -/
theorem generateDecklist_overfull_counterexample :
    (generateDecklist cfgOverfull).map List.length = some 53
      ∧ cfgOverfull.deck_size = 50 := by decide

/-- C8 (amended): the deck build raises before any trial exactly when the
configured deck size is outside the 50 to 105 lost-soul table; when the
required special cards exceed the deck size the build does not raise — it
silently returns a deck larger than the configured size. -/
theorem generateDecklist_raises_iff (cfg : SimConfig) :
    (generateDecklist cfg).isNone
      ↔ (cfg.deck_size < 50 ∨ 105 < cfg.deck_size) := by
  rw [← determineLostSouls_isNone_iff]
  unfold generateDecklist
  cases h : determineLostSoulsRequired cfg.deck_size <;> simp [h]

/-! ### C6: termination of the lost-soul trigger loop -/

theorem countV1_ls (l : List CardV1) :
    Zone.countV1 (some "lost_soul") none l = countLS l := by
  unfold Zone.countV1 countLS
  rw [countAux_eq_countP]
  exact List.countP_congr
    (fun c _ => by rw [matchAll_ct "lost_soul" (by decide) c])

theorem countP_take_add_drop {α : Type} (q : α → Bool) (n : Nat) (l : List α) :
    (l.take n).countP q + (l.drop n).countP q = l.countP q := by
  rw [← List.countP_append, List.take_append_drop]

theorem countLS_drawTransfer (h l : List CardV1) (k : Int) (hk : 0 < k) :
    countLS (h ++ ((Deck.drawN k l).getD ([], l)).1)
      + countLS (((Deck.drawN k l).getD ([], l)).2)
      = countLS h + countLS l := by
  rw [drawN_eq_take_drop k hk]
  simp only [Option.getD_some]
  exact countP_transfer _ h l k.toNat

theorem countLS_append_nonls (l : List CardV1) (c : CardV1)
    (hc : (c.card_type == "lost_soul") = false) :
    countLS (l ++ [c]) = countLS l := by
  unfold countLS
  rw [List.countP_append]
  simp [List.countP_cons, hc]

theorem countLS_remove_ls (l l2 : List CardV1) (c : CardV1)
    (hrm : Zone.removeV1 (some "lost_soul") none l = (some c, l2)) :
    countLS l = countLS l2 + 1 := by
  have hrf : removeFirst (matchAll (some "lost_soul") none) l = (some c, l2) := hrm
  have hfst : (removeFirst (matchAll (some "lost_soul") none) l).1 = some c := by
    rw [hrf]
  have hp := removeFirst_fst_some _ l c hfst
  rw [matchAll_ct "lost_soul" (by decide) c] at hp
  have hcnt := removeFirst_countP (matchAll (some "lost_soul") none)
    (fun x => x.card_type == "lost_soul") l
  rw [hrf] at hcnt
  simpa [countLS, hp] using hcnt

theorem countLS_remove_nonls (l l2 : List CardV1) (c : CardV1)
    (hrm : Zone.removeV1 (some "non_lost_soul") none l = (some c, l2)) :
    countLS l2 = countLS l ∧ (c.card_type == "lost_soul") = false := by
  have hrf : removeFirst (matchAll (some "non_lost_soul") none) l = (some c, l2) := hrm
  have hfst : (removeFirst (matchAll (some "non_lost_soul") none) l).1 = some c := by
    rw [hrf]
  have hp := removeFirst_fst_some _ l c hfst
  rw [matchAll_ct "non_lost_soul" (by decide) c] at hp
  have hcne : (c.card_type == "lost_soul") = false := by
    have hce : c.card_type = "non_lost_soul" := beq_iff_eq.mp hp
    rw [hce]
    decide
  have hcnt := removeFirst_countP (matchAll (some "non_lost_soul") none)
    (fun x => x.card_type == "lost_soul") l
  rw [hrf] at hcnt
  simp only [hcne, if_false, Bool.false_eq_true] at hcnt
  refine ⟨?_, hcne⟩
  unfold countLS
  omega

theorem removeV1_none_snd (ct st : Option String) (l l2 : List CardV1)
    (hrm : Zone.removeV1 ct st l = (none, l2)) : l2 = l := by
  have hrf : removeFirst (matchAll ct st) l = (none, l2) := hrm
  have hfst : (removeFirst (matchAll ct st) l).1 = none := by rw [hrf]
  have hsnd := removeFirst_fst_none _ l hfst
  rw [hrf] at hsnd
  exact hsnd

theorem lostSoulStep_measure (s s2 : SimStateV1)
    (h : lostSoulStep s = .ok s2) : lsMeasure s2 + 1 = lsMeasure s := by
  unfold lostSoulStep at h
  rcases hrm : Zone.removeV1 (some "lost_soul") none s.hand with ⟨ols, hand1⟩
  rw [hrm] at h
  cases ols with
  | none => simp at h
  | some ls =>
    dsimp only [] at h
    have hcnt : countLS s.hand = countLS hand1 + 1 :=
      countLS_remove_ls s.hand hand1 ls hrm
    have hsum2 :
        countLS (if s.deck.length = 0 then hand1
            else hand1 ++ ((Deck.drawN 1 s.deck).getD ([], s.deck)).1)
          + countLS (if s.deck.length = 0 then s.deck
            else ((Deck.drawN 1 s.deck).getD ([], s.deck)).2)
          = countLS hand1 + countLS s.deck := by
      by_cases hd : s.deck.length = 0
      · simp [hd]
      · simp only [hd, if_false]
        exact countLS_drawTransfer hand1 s.deck 1 (by omega)
    generalize hh2 : (if s.deck.length = 0 then hand1
        else hand1 ++ ((Deck.drawN 1 s.deck).getD ([], s.deck)).1) = hand2 at h hsum2
    generalize hd2 : (if s.deck.length = 0 then s.deck
        else ((Deck.drawN 1 s.deck).getD ([], s.deck)).2) = deck2 at h hsum2
    by_cases hcy : (ls.subtype == some "cycler") = true
    · rw [if_pos hcy] at h
      by_cases hcnd : Zone.countV1 (some "macguffin") none hand2 = 0
          ∧ Zone.countV1 (some "tutor") none hand2 = 0
      · rw [if_pos hcnd] at h
        rcases hnl : Zone.removeV1 (some "non_lost_soul") none hand2 with ⟨onl, hand3⟩
        rw [hnl] at h
        cases onl with
        | none => simp at h
        | some c =>
          obtain ⟨hh3, hcne⟩ := countLS_remove_nonls hand2 hand3 c hnl
          simp only [Except.ok.injEq] at h
          subst h
          simp only [lsMeasure]
          have ht := countLS_drawTransfer hand3 (Deck.bottomCards deck2 [c]) 1
            (by omega)
          have hap : countLS (Deck.bottomCards deck2 [c]) = countLS deck2 :=
            countLS_append_nonls deck2 c hcne
          omega
      · rw [if_neg hcnd] at h
        simp only [Except.ok.injEq] at h
        subst h
        simp only [lsMeasure]
        omega
    · rw [if_neg hcy] at h
      by_cases hpr : (ls.subtype == some "prosperity") = true
      · rw [if_pos hpr] at h
        by_cases hcnd : Zone.countV1 (some "macguffin") none hand2 = 0
            ∧ Zone.countV1 (some "tutor") none hand2 = 0
        · rw [if_pos hcnd] at h
          rcases hnl : Zone.removeV1 (some "non_lost_soul") none hand2 with ⟨onl, hand3⟩
          rw [hnl] at h
          have hh3 : countLS hand3 = countLS hand2 := by
            cases onl with
            | none => rw [removeV1_none_snd _ _ hand2 hand3 hnl]
            | some c => exact (countLS_remove_nonls hand2 hand3 c hnl).1
          simp only [Except.ok.injEq] at h
          subst h
          simp only [lsMeasure]
          have ht := countLS_drawTransfer hand3 deck2 2 (by omega)
          omega
        · rw [if_neg hcnd] at h
          simp only [Except.ok.injEq] at h
          subst h
          simp only [lsMeasure]
          omega
      · rw [if_neg hpr] at h
        simp only [Except.ok.injEq] at h
        subst h
        simp only [lsMeasure]
        omega

theorem lostSoulLoop_fuel (fuel : Nat) :
    ∀ s : SimStateV1, lsMeasure s ≤ fuel →
      (lostSoulLoop fuel s).isNoFuel = false := by
  induction fuel with
  | zero =>
    intro s hs
    have hh : countLS s.hand = 0 := by
      unfold lsMeasure at hs
      omega
    unfold lostSoulLoop
    rw [if_neg (by rw [countV1_ls, hh]; omega)]
    rfl
  | succ fuel ih =>
    intro s hs
    unfold lostSoulLoop
    by_cases hg : 0 < Zone.countV1 (some "lost_soul") none s.hand
    · rw [if_pos hg]
      cases hstep : lostSoulStep s with
      | error e => rfl
      | ok s2 =>
        have hm := lostSoulStep_measure s s2 hstep
        exact ih s2 (by omega)
    · rw [if_neg hg]
      rfl

/-- C6: the lost-soul trigger loop of `_draw_cards` terminates within
`|initial Hand| + |Deck|` iterations: given that iteration budget it never
runs out, because each iteration permanently removes one lost soul from the
hand-plus-deck pool. -/
theorem triggerLoop_terminates (s : SimStateV1) (fuel : Nat)
    (h : s.hand.length + s.deck.length ≤ fuel) :
    (lostSoulLoop fuel s).isNoFuel = false := by
  apply lostSoulLoop_fuel
  have h1 : countLS s.hand ≤ s.hand.length := List.countP_le_length _
  have h2 : countLS s.deck ≤ s.deck.length := List.countP_le_length _
  unfold lsMeasure
  omega

/-- Witness for C6 at a concrete state: one lost soul in hand, one card in
deck, budget two. -/
theorem triggerLoop_terminates_witness :
    ((⟨[chaffCard], [meekCard], [], []⟩ : SimStateV1).hand.length
        + (⟨[chaffCard], [meekCard], [], []⟩ : SimStateV1).deck.length ≤ 2)
      ∧ (lostSoulLoop 2 ⟨[chaffCard], [meekCard], [], []⟩).isNoFuel = false :=
  ⟨by decide, triggerLoop_terminates ⟨[chaffCard], [meekCard], [], []⟩ 2 (by decide)⟩

/-! ### C1: card conservation -/

/-- C1: in `Simulation._draw_cards` the drawn batch is added to the hand
only under `resolve_stars`, so the four-drachma-coin effect's
`_draw_cards(n_cards=4, resolve_stars=False)` removes four cards from the
deck without adding them to any zone: the zone total of the reachable state
`c1State` drops from 50 to 46. -/
theorem drawCards_drops_cards :
    zoneTotal c1State = 50
      ∧ (drawCardsV1 4 false false c1State).total = some 46 :=
  ⟨rfl, rfl⟩

/-! ### C9: lawless resolution -/

/-- C9: `_resolve_lawless` pops the revealed window while enumerating it,
so with two adjacent revealed lost souls only the first is moved to
Territory — the second is skipped unprocessed and returned to the bottom of
the deck instead. -/
theorem lawless_skips_second_soul :
    resolveLawlessV2 ctx0 c9State
      = .ok ⟨[heroCard, lsBCard, heroCard, heroCard, heroCard, heroCard],
          [], [lsACard], []⟩ := by
  rfl

/-! ### C10: `None` reaches `Deck.bottom_cards` -/

/-- C10: from the reachable 78-card configuration `c10State` (ten cycler
souls, shuffle order as listed), the opening eight-card draw makes the
second cycler fire with no `non_lost_soul` card in hand, so
`hand.remove("non_lost_soul")` returns `None` and that `None` is passed to
`Deck.bottom_cards` — modelled as the error result of the loop. -/
theorem cycler_passes_none_to_bottom :
    drawCardsV1 8 true false c10State = .err := by
  rfl

end RedSim
